import Mathlib

/-!
Verification of the noisia workload engine against its specification.

Each namespace embeds one part of the Go source:

* `Pool` — the guard-channel worker loop shared by `deadlocks.(*workload).Run`
  and the `startLoop` helpers: a buffered channel of capacity `jobs` is used as
  a semaphore; a send admits a unit of work, the unit receives one token when
  it ends, and the loop returns as soon as the context is cancelled.
* `Failconns` — the adaptive backoff controller of `failconns.(*workload).Run`.
* `Throttle` — the randomized per-iteration delays of `startLoop`,
  `rollbacks.(*workload).Run` and `waitxacts.(*workload).Run`.
* `Targeting` — `targeting.TopWriteTables` together with the semantics of the
  catalog query it issues.
* `Deadlocks` — the orchestration plan built by `executeDeadlock` and
  `runUpdateXact` in package `deadlocks`.
* `DeadlocksLog` — the logging variant of `executeDeadlock` that classifies
  and absorbs transaction errors.
* `Validate` — the `Config.validate` and `Config.defaults` routines deciding
  which configurations construct a workload.
* `Fixture` — the `prepare` fixture creation with create-if-not-exists
  semantics.
* `Terminate` — `buildQuery` of the terminate/cancel workload.
-/

namespace Pool

/-- Scheduler choices visible to the worker loop: the select admits a new unit
(the send on the guard channel is ready only while fewer than `jobs` tokens are
buffered), a running unit finishes (it receives one token from the guard
channel), or the loop observes the cancelled context. -/
inductive Choice where
  | acquire
  | finish
  | cancel
  deriving DecidableEq

/-- All in-flight counts seen while the loop runs, starting from `n` buffered
tokens, under a given sequence of scheduler choices.  An `admit` increments the
count only when the channel has room, mirroring the semantics of a send on a
buffered channel of capacity `jobs`; a `finish` removes one token; a `cancel`
makes the loop return at once, so later choices are not part of the run. -/
def runLoopStates (jobs : Nat) : Nat → List Choice → List Nat
  | n, [] => [n]
  | n, Choice.acquire :: rest =>
      n :: (if n < jobs then runLoopStates jobs (n + 1) rest else runLoopStates jobs n rest)
  | n, Choice.finish :: rest => n :: runLoopStates jobs (n - 1) rest
  | n, Choice.cancel :: _ => [n]

/-- Result of the worker loop: `some m` when the loop observed the cancelled
context and returned with `m` units still in flight, `none` when the choice
sequence ran out before any cancellation was observed. -/
def runResult (jobs : Nat) : Nat → List Choice → Option Nat
  | _, [] => none
  | n, Choice.acquire :: rest => runResult jobs (if n < jobs then n + 1 else n) rest
  | n, Choice.finish :: rest => runResult jobs (n - 1) rest
  | n, Choice.cancel :: _ => some n

/-- In-flight count after a cancellation-free sequence of scheduler choices. -/
def loopRun (jobs : Nat) : Nat → List Choice → Nat
  | n, [] => n
  | n, Choice.acquire :: rest => loopRun jobs (if n < jobs then n + 1 else n) rest
  | n, Choice.finish :: rest => loopRun jobs (n - 1) rest
  | n, Choice.cancel :: rest => loopRun jobs n rest

end Pool

namespace Failconns

/-- Floor interval between connection attempts: 50ms expressed in nanoseconds,
the value of `defaultConnInterval` in `failconns`. -/
def defaultConnInterval : Nat := 50000000

/-- Outcome of one `db.Connect` attempt inside `failconns.(*workload).Run`. -/
inductive Outcome where
  | success
  | failure
  deriving DecidableEq

/-- One iteration of the adaptive backoff controller: on a failed connection
attempt the interval doubles; on a successful one it halves, but only while it
sits above the floor. -/
def runStep (interval : Nat) : Outcome → Nat
  | Outcome.failure => interval * 2
  | Outcome.success => if interval > defaultConnInterval then interval / 2 else interval

/-- Interval held by the controller after a sequence of attempt outcomes,
starting from the floor interval as `Run` does. -/
def interval (os : List Outcome) : Nat :=
  os.foldl runStep defaultConnInterval

end Failconns

namespace Throttle

/-- Argument passed to `rand.Int63n` by `startLoop` after `maxTime++`: the
upper bound of the locktime range is incremented by one unit before drawing,
to compensate for the exclusive upper bound of `Int63n`. -/
def startLoopBound (minTime maxTime : Nat) : Nat := (maxTime + 1) - minTime

/-- Naptime computed by `startLoop`: the draw from `rand.Int63n` plus the
lower bound of the range. -/
def startLoopNaptime (minTime draw : Nat) : Nat := draw + minTime

/-- Rate drawn by `rollbacks.(*workload).Run`:
`rand.Intn(MaxRate-MinRate)+MinRate`, where the draw satisfies
`draw < MaxRate - MinRate` (no increment of the upper bound). -/
def rollbacksRate (minRate draw : Nat) : Nat := draw + minRate

/-- Interval in nanoseconds derived from a drawn rate in `rollbacks`: 900ms of
working time divided by the rate. -/
def rollbacksInterval (rate : Nat) : Nat := 900000000 / rate

/-- Naptime in seconds drawn by `waitxacts.(*workload).Run`:
`rand.Intn(max-min)+min`, where the draw satisfies `draw < max - min`
(no increment of the upper bound). -/
def waitxactsNaptime (minTime draw : Nat) : Nat := draw + minTime

end Throttle

namespace Targeting

/-- One row of `pg_stat_user_tables` as consumed by the query inside
`TopWriteTables`: schema, relation name and the updated/deleted tuple
counters. -/
structure StatRow where
  schemaname : String
  relname : String
  nTupUpd : Nat
  nTupDel : Nat
  deriving DecidableEq

/-- Write metric used by the ORDER BY clause: `n_tup_upd + n_tup_del`. -/
def writes (r : StatRow) : Nat := r.nTupUpd + r.nTupDel

/-- WHERE clause of the query: the schema is none of `pg_catalog`,
`information_schema`, `pg_toast`. -/
def userTable (r : StatRow) : Bool :=
  r.schemaname != "pg_catalog" && r.schemaname != "information_schema"
    && r.schemaname != "pg_toast"

/-- Ranking relation of the ORDER BY clause: descending in the write metric. -/
def writesGE (a b : StatRow) : Prop := writes b ≤ writes a

instance : DecidableRel writesGE := fun a b => Nat.decLe (writes b) (writes a)

instance : IsTotal StatRow writesGE :=
  ⟨fun a b => Nat.le_total (writes b) (writes a)⟩

instance : IsTrans StatRow writesGE :=
  ⟨fun _ _ _ h1 h2 => Nat.le_trans h2 h1⟩

/-- Rows produced by the catalog query of `TopWriteTables`: user tables,
ordered by the write metric descending, limited to `n`. -/
def topWriteRows (rows : List StatRow) (n : Nat) : List StatRow :=
  ((rows.filter userTable).insertionSort writesGE).take n

/-- Schema-qualified name scanned from one result row. -/
def qualifiedName (r : StatRow) : String := r.schemaname ++ "." ++ r.relname

/-- Embedding of `targeting.TopWriteTables` over the statistics rows the
database would serve: it scans every result row of the catalog query into a
list of qualified names, and errs only when the query or a scan errs — never
on an empty result. -/
def TopWriteTables (rows : List StatRow) (n : Nat) : Except String (List String) :=
  Except.ok ((topWriteRows rows n).map qualifiedName)

end Targeting

namespace Deadlocks

/-- Operations a deadlock transaction performs against the working table, in
the order `runUpdateXact` issues them. -/
inductive XactStep where
  | begin
  | update (id : Int)
  | sleepMs (ms : Nat)
  | commit
  | rollback
  deriving DecidableEq

/-- Trace of `runUpdateXact id1 id2` for each combination of step outcomes:
begin the transaction, update the row `id1`, sleep 10ms, update the row `id2`,
commit; the deferred rollback runs on every path after a successful begin, and
a failing step ends the transaction early. -/
def runUpdateXact (id1 id2 : Int) : Bool → Bool → Bool → List XactStep
  | false, _, _ => []
  | true, false, _ => [XactStep.begin, XactStep.update id1, XactStep.rollback]
  | true, true, false =>
      [XactStep.begin, XactStep.update id1, XactStep.sleepMs 10,
        XactStep.update id2, XactStep.rollback]
  | true, true, true =>
      [XactStep.begin, XactStep.update id1, XactStep.sleepMs 10,
        XactStep.update id2, XactStep.commit, XactStep.rollback]

/-- The work one `executeDeadlock` invocation performs: the pair of row
identifiers inserted into the working table, and the two concurrently started
transactions; `wg.Wait()` makes the orchestrator return only after both
transaction traces are complete. -/
structure DeadlockPlan where
  insertIds : Int × Int
  xactA : List XactStep
  xactB : List XactStep
  deriving DecidableEq

/-- The two row identifiers drawn by `executeDeadlock`: two successive values
of the package-level random source (`rand.Int(), rand.Int()`), with no
distinctness check. -/
def deadlockIds (rng : Nat → Int) : Int × Int := (rng 0, rng 1)

/-- Embedding of `deadlocks.(*workload).executeDeadlock`: draw two row
identifiers, insert both rows, then run the two update transactions, one over
`(id1, id2)` and the other over `(id2, id1)`; a failing insert aborts the
orchestration before any transaction starts. -/
def executeDeadlock (rng : Nat → Int) :
    Bool → Bool → Bool → Bool → Bool → Bool → Bool → Option DeadlockPlan
  | false, _, _, _, _, _, _ => none
  | true, aBegin, aU1, aU2, bBegin, bU1, bU2 =>
      some { insertIds := deadlockIds rng
           , xactA := runUpdateXact (deadlockIds rng).1 (deadlockIds rng).2 aBegin aU1 aU2
           , xactB := runUpdateXact (deadlockIds rng).2 (deadlockIds rng).1 bBegin bU1 bU2 }

end Deadlocks

namespace DeadlocksLog

/-- The exact error message `executeDeadlock` compares a transaction error
against to recognize the expected deadlock victim. -/
def deadlockMsg : String := "ERROR: deadlock detected (SQLSTATE 40P01)"

/-- Events emitted through the logger by `executeDeadlock`. -/
inductive LogEvent where
  | info (msg : String)
  | warn (msg : String)
  deriving DecidableEq

/-- Handling of one transaction outcome inside `executeDeadlock`: no error
logs nothing; the recognized deadlock error is logged at info level as the
expected outcome; any other error is logged as an unexpected update failure.
In every case the error stops here — nothing is returned to the caller. -/
def logXactResult : Option String → List LogEvent
  | none => []
  | some e =>
      if e = deadlockMsg then [LogEvent.info "deadlock detected"]
      else [LogEvent.warn ("update failed: " ++ e)]

/-- Embedding of the logging `executeDeadlock`: connecting twice and inserting
the rows are setup steps whose failure is returned to the caller; the two
update transactions run concurrently, their outcomes are only logged, and
after `wg.Wait()` the orchestration returns nil unconditionally. -/
def executeDeadlock (conn1Err conn2Err insertErr : Option String)
    (xact1 xact2 : Option String) : Except String (List LogEvent) :=
  match conn1Err with
  | some e => Except.error e
  | none =>
    match conn2Err with
    | some e => Except.error e
    | none =>
      match insertErr with
      | some e => Except.error e
      | none => Except.ok (logXactResult xact1 ++ logXactResult xact2)

end DeadlocksLog

namespace Validate

/-- Settings checked by `waitxacts.Config.validate`; durations are in
nanoseconds. -/
structure WaitxactsConfig where
  Jobs : Nat
  LocktimeMin : Nat
  LocktimeMax : Nat
  deriving DecidableEq

/-- Embedding of `waitxacts.Config.validate`: two cooperating participants are
required, both locktime bounds must be nonzero, and the lower bound must not
exceed the upper bound. -/
def waitxactsValidate (c : WaitxactsConfig) : Except String Unit :=
  if c.Jobs < 2 then Except.error "jobs must be greater than 1"
  else if c.LocktimeMin = 0 ∨ c.LocktimeMax = 0 then
    Except.error "min and max lock time must be greater than zero"
  else if c.LocktimeMin > c.LocktimeMax then
    Except.error "min lock time must be less or equal to max lock time"
  else Except.ok ()

/-- Settings checked by `deadlocks.Config.validate`. -/
structure DeadlocksConfig where
  Jobs : Nat
  deriving DecidableEq

/-- Embedding of `deadlocks.Config.validate`: any nonzero number of jobs is
accepted. -/
def deadlocksValidate (c : DeadlocksConfig) : Except String Unit :=
  if c.Jobs < 1 then Except.error "jobs must be greater than zero"
  else Except.ok ()

/-- Settings normalized by `rollbacks.Config.defaults`; rates are Go ints. -/
structure RollbacksConfig where
  Jobs : Nat
  MinRate : Int
  MaxRate : Int
  deriving DecidableEq

/-- Second statement of `rollbacks.Config.defaults`: a minimum rate above the
maximum is silently clamped down to the maximum. -/
def rollbacksClamp (c : RollbacksConfig) : RollbacksConfig :=
  if c.MinRate > c.MaxRate then { c with MinRate := c.MaxRate } else c

/-- Embedding of `rollbacks.Config.defaults`: when both rates are zero they
become the default rate 10, then the minimum rate is clamped to the
maximum. -/
def rollbacksDefaults (c : RollbacksConfig) : RollbacksConfig :=
  rollbacksClamp
    (if c.MinRate = 0 ∧ c.MaxRate = 0
      then { c with MinRate := 10, MaxRate := 10 } else c)

/-- Embedding of `rollbacks.NewWorkload`: it applies `defaults` and returns a
workload — its signature has no error, so no configuration is ever
rejected. -/
def rollbacksNewWorkload (c : RollbacksConfig) : Except String RollbacksConfig :=
  Except.ok (rollbacksDefaults c)

end Validate

namespace Fixture

/-- Semantics of `CREATE TABLE IF NOT EXISTS t` against the list of tables
present in the database: when the table already exists the statement is a
no-op, otherwise the table is created; either way the statement succeeds. -/
def execCreateIfNotExists (t : String) (s : List String) : List String :=
  if t ∈ s then s else s ++ [t]

/-- Embedding of `deadlocks.(*workload).prepare`: it executes one
create-if-not-exists statement for the working table and errs only when the
database rejects the statement. -/
def deadlocksPrepare (s : List String) : Except String (List String) :=
  Except.ok (execCreateIfNotExists "_noisia_deadlocks_workload" s)

/-- Database state relevant to the waitxacts fixture: the tables present and
the number of rows in the fixture table. -/
structure WaitDB where
  tables : List String
  fixtureRows : Nat
  deriving DecidableEq

/-- Embedding of `waitxacts.(*workload).prepare`: inside one transaction it
creates the fixture table if absent and inserts one payload row, then
commits. -/
def waitxactsPrepare (s : WaitDB) : Except String WaitDB :=
  Except.ok
    { tables := execCreateIfNotExists "_noisia_waitxacts_workload" s.tables
    , fixtureRows := s.fixtureRows + 1 }

end Fixture

namespace Terminate

/-- Settings of `terminate.Config` consumed by `buildQuery`. -/
structure Config where
  SoftMode : Bool
  IgnoreSystemBackends : Bool
  ClientAddr : String
  User : String
  Database : String
  ApplicationName : String

/-- Embedding of `terminate.buildQuery`: the signalled function is chosen by
`SoftMode`, each optional filter contributes its predicate only when set, and
the fixed skeleton always excludes the own backend via
`pid <> pg_backend_pid()` and picks one random matching session. -/
def buildQuery (c : Config) : String :=
  let signalFuncname :=
    if c.SoftMode then "pg_cancel_backend(pid)" else "pg_terminate_backend(pid)"
  let signalClientBackendsOnly :=
    if c.IgnoreSystemBackends then "AND backend_type = \x27client backend\x27 " else ""
  let signalClientAddr :=
    if c.ClientAddr ≠ "" then "AND client_addr::text ~ \x27" ++ c.ClientAddr ++ "\x27 " else ""
  let signalUser :=
    if c.User ≠ "" then "AND usename ~ \x27" ++ c.User ++ "\x27 " else ""
  let signalDatabase :=
    if c.Database ≠ "" then "AND datname ~ \x27" ++ c.Database ++ "\x27 " else ""
  let signalAppName :=
    if c.ApplicationName ≠ "" then
      "AND application_name ~ \x27" ++ c.ApplicationName ++ "\x27 " else ""
  "SELECT " ++ signalFuncname ++
    (" FROM pg_stat_activity WHERE pid <> pg_backend_pid() " ++
      (signalClientBackendsOnly ++
        (signalClientAddr ++
          (signalUser ++
            (signalDatabase ++
              (signalAppName ++ "ORDER BY random() LIMIT 1"))))))

end Terminate

namespace Pool

/-- C1: for every concurrency limit `jobs`, every in-flight count observed
during the worker loop stays at or below `jobs`: a unit starts only by a send
on the guard channel, which succeeds only while fewer than `jobs` tokens are
buffered, and each finished unit frees exactly one token. -/
theorem run_loop_inflight_bounded (jobs : Nat) :
    ∀ (ds : List Choice) (n : Nat), n ≤ jobs →
      ∀ s ∈ runLoopStates jobs n ds, s ≤ jobs := by
  intro ds
  induction ds with
  | nil =>
      intro n hn s hs
      simp only [runLoopStates, List.mem_singleton] at hs
      exact hs ▸ hn
  | cons c rest ih =>
      intro n hn s hs
      cases c with
      | acquire =>
          simp only [runLoopStates] at hs
          rcases List.mem_cons.mp hs with h | h
          · exact h ▸ hn
          · by_cases hlt : n < jobs
            · rw [if_pos hlt] at h
              exact ih (n + 1) hlt s h
            · rw [if_neg hlt] at h
              exact ih n hn s h
      | finish =>
          simp only [runLoopStates] at hs
          rcases List.mem_cons.mp hs with h | h
          · exact h ▸ hn
          · exact ih (n - 1) (Nat.le_trans (Nat.sub_le n 1) hn) s h
      | cancel =>
          simp only [runLoopStates, List.mem_singleton] at hs
          exact hs ▸ hn

/-- Witness for C1 at `jobs = 2` and a concrete schedule of admissions,
completions and a final cancellation. -/
theorem run_loop_inflight_bounded_witness :
    (0 : Nat) ≤ 2 ∧
      ∀ s ∈ runLoopStates 2 0
        [Choice.acquire, Choice.acquire, Choice.acquire, Choice.finish,
          Choice.acquire, Choice.cancel], s ≤ 2 :=
  ⟨by decide,
    run_loop_inflight_bounded 2
      [Choice.acquire, Choice.acquire, Choice.acquire, Choice.finish,
        Choice.acquire, Choice.cancel] 0 (by decide)⟩

theorem loopRun_le (jobs : Nat) :
    ∀ (ds : List Choice) (n : Nat), n ≤ jobs → loopRun jobs n ds ≤ jobs := by
  intro ds
  induction ds with
  | nil => intro n hn; exact hn
  | cons c rest ih =>
      intro n hn
      cases c with
      | acquire =>
          by_cases hlt : n < jobs
          · simp only [loopRun, if_pos hlt]
            exact ih (n + 1) hlt
          · simp only [loopRun, if_neg hlt]
            exact ih n hn
      | finish => exact ih (n - 1) (Nat.le_trans (Nat.sub_le n 1) hn)
      | cancel => exact ih n hn

theorem runResult_append_cancel (jobs : Nat) :
    ∀ (before : List Choice) (n : Nat) (after : List Choice),
      Choice.cancel ∉ before →
      runResult jobs n (before ++ Choice.cancel :: after) = some (loopRun jobs n before) := by
  intro before
  induction before with
  | nil => intro n after _; rfl
  | cons c rest ih =>
      intro n after hmem
      have hc : c ≠ Choice.cancel := fun h => hmem (h ▸ List.mem_cons_self c rest)
      have hrest : Choice.cancel ∉ rest := fun h => hmem (List.mem_cons_of_mem c h)
      cases c with
      | acquire =>
          simp only [List.cons_append, runResult, loopRun]
          exact ih _ after hrest
      | finish =>
          simp only [List.cons_append, runResult, loopRun]
          exact ih _ after hrest
      | cancel => exact absurd rfl hc

/-- C2 counterexample: with one job, the loop admits a unit and then observes
the cancellation; `Run` returns while that unit is still in flight — it does
not wait for in-flight units to finish. -/
theorem run_returns_with_unit_in_flight :
    runResult 1 0 [Choice.acquire, Choice.cancel] = some 1 := by decide

/-- C2 amended: the worker loop returns at the first observed cancellation,
with exactly the units admitted (and not yet finished) before that point still
in flight; the choices after the cancellation play no part, so no new unit is
admitted once the loop has returned, but the loop does not wait for the
in-flight units — their count at return is only bounded by `jobs`, not
zero. -/
theorem run_stops_admitting_on_cancel (jobs n : Nat) (before after : List Choice)
    (hmem : Choice.cancel ∉ before) (hn : n ≤ jobs) :
    runResult jobs n (before ++ Choice.cancel :: after) = some (loopRun jobs n before)
    ∧ loopRun jobs n before ≤ jobs :=
  ⟨runResult_append_cancel jobs before n after hmem, loopRun_le jobs before n hn⟩

/-- Witness for C2 (amended) at a concrete schedule: two admissions and one
completion before the cancellation, arbitrary choices after it. -/
theorem run_stops_admitting_on_cancel_witness :
    runResult 2 0
        ([Choice.acquire, Choice.acquire, Choice.finish] ++ Choice.cancel :: [Choice.acquire])
      = some (loopRun 2 0 [Choice.acquire, Choice.acquire, Choice.finish])
    ∧ loopRun 2 0 [Choice.acquire, Choice.acquire, Choice.finish] ≤ 2 :=
  run_stops_admitting_on_cancel 2 0 [Choice.acquire, Choice.acquire, Choice.finish]
    [Choice.acquire] (by decide) (by decide)

end Pool

namespace Failconns

theorem runStep_pow (os : List Outcome) :
    ∀ i : Nat, (∃ k, i = defaultConnInterval * 2 ^ k) →
      ∃ k, os.foldl runStep i = defaultConnInterval * 2 ^ k := by
  induction os with
  | nil => intro i hi; exact hi
  | cons o rest ih =>
      intro i hi
      obtain ⟨k, hk⟩ := hi
      cases o with
      | failure =>
          refine ih _ ⟨k + 1, ?_⟩
          simp only [runStep, hk, Nat.mul_assoc, Nat.pow_succ]
      | success =>
          by_cases hgt : i > defaultConnInterval
          · have hk1 : 1 ≤ k := by
              by_contra hlt
              have hk0 : k = 0 := Nat.eq_zero_of_not_pos hlt
              rw [hk, hk0, Nat.pow_zero, Nat.mul_one] at hgt
              exact Nat.lt_irrefl _ hgt
            obtain ⟨k', hk'⟩ : ∃ k', k = k' + 1 := ⟨k - 1, by omega⟩
            refine ih _ ⟨k', ?_⟩
            simp only [runStep]
            rw [if_pos hgt, hk, hk', Nat.pow_succ, ← Nat.mul_assoc]
            exact Nat.mul_div_cancel _ (by decide)
          · refine ih _ ⟨k, ?_⟩
            simp only [runStep]
            rw [if_neg hgt]
            exact hk

theorem interval_pow (os : List Outcome) :
    ∃ k, interval os = defaultConnInterval * 2 ^ k :=
  runStep_pow os defaultConnInterval ⟨0, by simp⟩

theorem interval_ge_floor (os : List Outcome) :
    defaultConnInterval ≤ interval os := by
  obtain ⟨k, hk⟩ := interval_pow os
  rw [hk]
  calc defaultConnInterval = defaultConnInterval * 1 := (Nat.mul_one _).symm
    _ ≤ defaultConnInterval * 2 ^ k :=
        Nat.mul_le_mul_left _ (Nat.one_le_two_pow)

/-- C3: the adaptive backoff controller of the connection-exhaustion workload,
started at the floor interval, (1) never produces an interval below the floor
after any sequence of outcomes; (2) exactly doubles, hence never decreases, on
each failure; (3) after one or more trailing failures a single success halves
the interval — a strict decrease — and the result still sits at or above the
floor. -/
theorem failconns_backoff_floor_and_adaptive :
    (∀ os : List Outcome, defaultConnInterval ≤ interval os)
    ∧ (∀ i : Nat, runStep i Outcome.failure = i * 2)
    ∧ (∀ i : Nat, i ≤ runStep i Outcome.failure)
    ∧ (∀ os : List Outcome,
        runStep (interval (os ++ [Outcome.failure])) Outcome.success
          < interval (os ++ [Outcome.failure])
        ∧ defaultConnInterval ≤ runStep (interval (os ++ [Outcome.failure])) Outcome.success) := by
  refine ⟨interval_ge_floor, fun _ => rfl, fun i => Nat.le_mul_of_pos_right i (by decide), ?_⟩
  intro os
  have hfloor : 0 < defaultConnInterval := by decide
  have hm : defaultConnInterval ≤ interval os := interval_ge_floor os
  have hmpos : 0 < interval os := Nat.lt_of_lt_of_le hfloor hm
  have happ : interval (os ++ [Outcome.failure]) = interval os * 2 := by
    simp only [interval, List.foldl_append, List.foldl_cons, List.foldl_nil]
    rfl
  have hgt : interval (os ++ [Outcome.failure]) > defaultConnInterval := by
    rw [happ]
    calc defaultConnInterval ≤ interval os := hm
      _ < interval os * 2 := by omega
  have hstep : runStep (interval (os ++ [Outcome.failure])) Outcome.success = interval os := by
    simp only [runStep]
    rw [if_pos hgt, happ]
    exact Nat.mul_div_cancel _ (by decide)
  constructor
  · rw [hstep, happ]; omega
  · rw [hstep]; exact hm

end Failconns

namespace Throttle

/-- C4 counterexample: the rollbacks throttle with MinRate 1 and MaxRate 2
(a range with min < max) draws `rand.Intn(MaxRate-MinRate)+MinRate` without
incrementing the upper bound; `Intn(1)` admits only the draw 0, whose rate is
1, strictly below the maximum — the draw is exclusive of max, contradicting
the claimed inclusivity for every randomized interval throttle. -/
theorem rollbacks_rate_never_reaches_max :
    (2 : Nat) - 1 = 1 ∧ rollbacksRate 1 0 = 1 ∧ rollbacksRate 1 0 < 2 := by decide

/-- C4 amended: only the duration-based `startLoop` increments the upper bound
by one unit before drawing, making its naptime range inclusive of max (and max
itself attainable); the rate-based throttles of rollbacks and the
seconds-based waitxacts draw `Intn(max-min)+min` with no increment, so their
drawn value lies in `[min, max)`, strictly below max. -/
theorem throttle_delay_ranges (mn mx d d2 : Nat) (hmn : mn ≤ mx)
    (hd : d < startLoopBound mn mx) (hd2 : d2 < mx - mn) :
    (mn ≤ startLoopNaptime mn d ∧ startLoopNaptime mn d ≤ mx)
    ∧ startLoopNaptime mn (mx - mn) = mx
    ∧ mx - mn < startLoopBound mn mx
    ∧ (mn ≤ rollbacksRate mn d2 ∧ rollbacksRate mn d2 < mx)
    ∧ (mn ≤ waitxactsNaptime mn d2 ∧ waitxactsNaptime mn d2 < mx) := by
  unfold startLoopBound at hd ⊢
  unfold startLoopNaptime rollbacksRate waitxactsNaptime
  omega

/-- Witness for C4 (amended) at the range `[2, 5]` with draws 3 (startLoop)
and 1 (Intn-based throttles). -/
theorem throttle_delay_ranges_witness :
    ((2 : Nat) ≤ startLoopNaptime 2 3 ∧ startLoopNaptime 2 3 ≤ 5)
    ∧ startLoopNaptime 2 (5 - 2) = 5
    ∧ 5 - 2 < startLoopBound 2 5
    ∧ ((2 : Nat) ≤ rollbacksRate 2 1 ∧ rollbacksRate 2 1 < 5)
    ∧ ((2 : Nat) ≤ waitxactsNaptime 2 1 ∧ waitxactsNaptime 2 1 < 5) :=
  throttle_delay_ranges 2 5 3 1 (by decide) (by decide) (by decide)

end Throttle

namespace Targeting

/-- C5: `TopWriteTables` returns at most `n` qualified names; the underlying
rows are ordered non-increasingly in the `n_tup_upd + n_tup_del` metric; and
when no qualifying table exists the result is the empty list with no error. -/
theorem topWriteTables_spec (rows : List StatRow) (n : Nat) :
    (∃ ts, TopWriteTables rows n = Except.ok ts ∧ ts.length ≤ n)
    ∧ List.Pairwise writesGE (topWriteRows rows n)
    ∧ (rows.filter userTable = [] → TopWriteTables rows n = Except.ok []) := by
  refine ⟨⟨(topWriteRows rows n).map qualifiedName, rfl, ?_⟩, ?_, ?_⟩
  · rw [List.length_map]
    exact List.length_take_le n _
  · exact List.Pairwise.sublist (List.take_sublist n _)
      (List.sorted_insertionSort writesGE (rows.filter userTable))
  · intro h
    simp [TopWriteTables, topWriteRows, h, List.insertionSort]

/-- Witness for C5: a database whose only user table lives in `pg_toast` has
zero qualifying tables, and the selection returns the empty list without
error. -/
theorem topWriteTables_spec_witness :
    TopWriteTables [{ schemaname := "pg_toast", relname := "t", nTupUpd := 1, nTupDel := 0 }] 2
      = Except.ok [] :=
  (topWriteTables_spec
    [{ schemaname := "pg_toast", relname := "t", nTupUpd := 1, nTupDel := 0 }] 2).2.2 rfl

end Targeting

namespace Deadlocks

/-- C6 counterexample: the two row identifiers are two successive draws of the
random source with no distinctness check, so a source that repeats a value
yields two rows with the same identifier — the identifiers are fresh draws but
not guaranteed unique. -/
theorem deadlock_ids_not_unique :
    (deadlockIds (fun _ => 7)).1 = (deadlockIds (fun _ => 7)).2 := rfl

/-- C6 amended: each `executeDeadlock` invocation draws two random (not
necessarily distinct) identifiers, inserts both rows, and runs two
transactions over them in reversed order — one updates row1 then row2, the
other row2 then row1 — each sleeping a fixed 10ms after its first update
before attempting the second, and the orchestration result carries both
complete transaction traces (it returns only after both resolve). -/
theorem executeDeadlock_structure (rng : Nat → Int) :
    ∃ i j : Int, deadlockIds rng = (i, j)
      ∧ executeDeadlock rng true true true true true true true =
          some { insertIds := (i, j)
               , xactA := [XactStep.begin, XactStep.update i, XactStep.sleepMs 10,
                   XactStep.update j, XactStep.commit, XactStep.rollback]
               , xactB := [XactStep.begin, XactStep.update j, XactStep.sleepMs 10,
                   XactStep.update i, XactStep.commit, XactStep.rollback] } :=
  ⟨rng 0, rng 1, rfl, rfl⟩

end Deadlocks

namespace DeadlocksLog

/-- C7: with the setup steps succeeding, the orchestration reports success for
every combination of transaction outcomes — transaction errors are never
escalated through its result; the recognized deadlock error is logged at info
level as the expected outcome, any other transaction error as an unexpected
update failure. -/
theorem executeDeadlock_absorbs_xact_errors (xact1 xact2 : Option String) :
    ∃ logs, executeDeadlock none none none xact1 xact2 = Except.ok logs
      ∧ (xact1 = some deadlockMsg → LogEvent.info "deadlock detected" ∈ logs)
      ∧ (∀ e, xact1 = some e → e ≠ deadlockMsg →
          LogEvent.warn ("update failed: " ++ e) ∈ logs)
      ∧ (xact2 = some deadlockMsg → LogEvent.info "deadlock detected" ∈ logs)
      ∧ (∀ e, xact2 = some e → e ≠ deadlockMsg →
          LogEvent.warn ("update failed: " ++ e) ∈ logs) := by
  refine ⟨logXactResult xact1 ++ logXactResult xact2, rfl, ?_, ?_, ?_, ?_⟩
  · intro h
    subst h
    simp [logXactResult]
  · intro e he hne
    subst he
    simp [logXactResult, hne]
  · intro h
    subst h
    simp [logXactResult]
  · intro e he hne
    subst he
    simp [logXactResult, hne]

/-- Witness for C7: the first transaction is the deadlock victim, the second
succeeds; the orchestration still returns success and logs the deadlock as
the expected outcome. -/
theorem executeDeadlock_absorbs_xact_errors_witness :
    ∃ logs, executeDeadlock none none none (some deadlockMsg) none = Except.ok logs
      ∧ LogEvent.info "deadlock detected" ∈ logs := by
  obtain ⟨logs, h, h1, -, -, -⟩ := executeDeadlock_absorbs_xact_errors (some deadlockMsg) none
  exact ⟨logs, h, h1 rfl⟩

end DeadlocksLog

namespace Validate

theorem rollbacksClamp_le (c : RollbacksConfig) :
    (rollbacksClamp c).MinRate ≤ (rollbacksClamp c).MaxRate := by
  unfold rollbacksClamp
  split_ifs with h
  · exact Int.le_refl _
  · omega

/-- C8 counterexample: a configuration with zero jobs and MinRate 5 above
MaxRate 2 violates the RunConfig invariant on both counts, yet
`rollbacks.NewWorkload` accepts it — its signature has no error and
`defaults` silently clamps the minimum rate instead of rejecting. -/
theorem rollbacks_accepts_invalid_config :
    rollbacksNewWorkload { Jobs := 0, MinRate := 5, MaxRate := 2 }
      = Except.ok { Jobs := 0, MinRate := 2, MaxRate := 2 } := rfl

/-- C8 amended: the workloads with a `validate` method reject configurations
with an error exactly when the invariant fails — waitxacts requires at least
two jobs, nonzero locktime bounds and min ≤ max; deadlocks requires only at
least one job (not two: each worker spawns both competing transactions
itself) — while `rollbacks.NewWorkload` never rejects: it normalizes the
configuration, and after `defaults` the rate range always satisfies
min ≤ max. -/
theorem newWorkload_validation (wc : WaitxactsConfig) (dc : DeadlocksConfig)
    (rc : RollbacksConfig) :
    (waitxactsValidate wc = Except.ok () ↔
      (2 ≤ wc.Jobs ∧ wc.LocktimeMin ≠ 0 ∧ wc.LocktimeMax ≠ 0
        ∧ wc.LocktimeMin ≤ wc.LocktimeMax))
    ∧ (deadlocksValidate dc = Except.ok () ↔ 1 ≤ dc.Jobs)
    ∧ (rollbacksNewWorkload rc).isOk = true
    ∧ (rollbacksDefaults rc).MinRate ≤ (rollbacksDefaults rc).MaxRate := by
  refine ⟨?_, ?_, rfl, rollbacksClamp_le _⟩
  · unfold waitxactsValidate
    split_ifs with h1 h2 h3 <;> simp <;> omega
  · unfold deadlocksValidate
    split_ifs with h <;> simp <;> omega

end Validate

namespace Fixture

theorem execCreateIfNotExists_twice_count (t : String) (l : List String)
    (h : t ∉ l) :
    (execCreateIfNotExists t (execCreateIfNotExists t l)).count t = 1 := by
  unfold execCreateIfNotExists
  rw [if_neg h]
  have hmem : t ∈ l ++ [t] := List.mem_append_right l (List.mem_singleton_self t)
  rw [if_pos hmem, List.count_append, List.count_eq_zero.mpr h]
  simp

/-- C9: invoking `prepare` twice in sequence against a database that does not
yet hold the fixture table returns no error either time and leaves exactly one
fixture table — both for the deadlocks fixture and for the waitxacts fixture
(whose prepare additionally inserts one payload row per invocation). -/
theorem prepare_idempotent (s : List String) (w : WaitDB)
    (h1 : "_noisia_deadlocks_workload" ∉ s)
    (h2 : "_noisia_waitxacts_workload" ∉ w.tables) :
    (∃ s1 s2, deadlocksPrepare s = Except.ok s1 ∧ deadlocksPrepare s1 = Except.ok s2
      ∧ s2.count "_noisia_deadlocks_workload" = 1)
    ∧ (∃ w1 w2, waitxactsPrepare w = Except.ok w1 ∧ waitxactsPrepare w1 = Except.ok w2
      ∧ w2.tables.count "_noisia_waitxacts_workload" = 1) :=
  ⟨⟨_, _, rfl, rfl, execCreateIfNotExists_twice_count _ s h1⟩,
    ⟨_, _, rfl, rfl, execCreateIfNotExists_twice_count _ w.tables h2⟩⟩

/-- Witness for C9 against the empty database. -/
theorem prepare_idempotent_witness :
    (∃ s1 s2, deadlocksPrepare [] = Except.ok s1 ∧ deadlocksPrepare s1 = Except.ok s2
      ∧ s2.count "_noisia_deadlocks_workload" = 1)
    ∧ (∃ w1 w2, waitxactsPrepare { tables := [], fixtureRows := 0 } = Except.ok w1
      ∧ waitxactsPrepare w1 = Except.ok w2
      ∧ w2.tables.count "_noisia_waitxacts_workload" = 1) :=
  prepare_idempotent [] { tables := [], fixtureRows := 0 }
    (List.not_mem_nil _) (List.not_mem_nil _)

end Fixture

namespace Terminate

/-- C10: for every configuration, the query built by `buildQuery` starts with
the selected signalling function — `pg_cancel_backend` when SoftMode is set,
`pg_terminate_backend` otherwise — applied over `pg_stat_activity` rows
filtered by the fixed predicate `pid <> pg_backend_pid()`, whatever optional
filters follow: the workload never signals its own backend. -/
theorem buildQuery_excludes_self (c : Config) :
    ∃ filters, buildQuery c =
      "SELECT " ++
        (if c.SoftMode then "pg_cancel_backend(pid)" else "pg_terminate_backend(pid)") ++
        (" FROM pg_stat_activity WHERE pid <> pg_backend_pid() " ++ filters) :=
  ⟨_, rfl⟩

end Terminate
